import Mathlib

/-!
Verification of the semiconductor band-structure calculator in src/main.py.

The numeric core of the script is embedded shallowly over the rationals:
Python floats become exact rationals, Python lists become Lean lists,
list indexing that can raise IndexError is modelled with Option, and the
two potentially non-terminating phases of the bisection root finder (the
recursive bracket refinement and the tolerance while-loop) are modelled
with an explicit fuel parameter, where a result of none means that the
computation did not return within the given fuel, some none models the
Python return value None, and some (some t) models returning the float t.
Transcendental operations used by the Matthews-Blakeslee model (log,
sqrt, pi) are taken as oracle parameters since they have no exact
rational counterpart; all structural theorems quantify over them.
-/

/-- Bandgap parameter tuples (a, b_ac, bowing) for the Gamma, X and L
symmetry points, from the CONFIG block of main.py. -/
def PARAMETERS_BANDGAP : List (ℚ × ℚ × ℚ) :=
  [(0.235, 0.417, 0.67), (0.63, 1.433, 0.6), (0.93, 1.133, 0.6)]

namespace PARAMETERS_BANDS

/-- Valence band offset endpoint pair. -/
def VBO : ℚ × ℚ := (0, -0.59)

/-- Shear deformation potential endpoint pair. -/
def b : ℚ × ℚ := (-2.0, -1.8)

/-- Conduction-band hydrostatic deformation potential endpoint pair. -/
def a_c : ℚ × ℚ := (-6.94, -5.08)

/-- Valence-band hydrostatic deformation potential endpoint pair. -/
def a_v : ℚ × ℚ := (-0.36, -1.00)

/-- Elastic constant C11 endpoint pair. -/
def C_11 : ℚ × ℚ := (684.7, 832.9)

/-- Elastic constant C12 endpoint pair. -/
def C_12 : ℚ × ℚ := (373.5, 452.6)

/-- Lattice constant endpoint pair. -/
def lattice_a : ℚ × ℚ := (6.4794, 6.0583)

/-- Substrate lattice constant. -/
def lattice_a_0 : ℚ := 6.0583

end PARAMETERS_BANDS

namespace PARAMETERS_TEMPERATURE

/-- Varshni alpha coefficient endpoint pair. -/
def alpha : ℚ × ℚ := (0.32 * 10 ^ (-(3:ℤ)), 0.276 * 10 ^ (-(3:ℤ)))

/-- Varshni beta coefficient endpoint pair. -/
def beta : ℚ × ℚ := (170, 93)

/-- Temperature list from the CONFIG block. -/
def Temperatures : List ℤ := [0, 10, 300]

end PARAMETERS_TEMPERATURE

/-- Embedding of calculate_energy (main.py lines 63-79): builds the 101-point
composition grid and evaluates y = a + b x + c x^2 at every grid point. -/
def calculate_energy (value_a value_b value_c : ℚ) : List ℚ × List ℚ :=
  let x_list := (List.range 101).map (fun i : ℕ => (i : ℚ) / 100)
  (x_list, x_list.map (fun x_val => value_a + value_b * x_val + value_c * x_val * x_val))

/-- Embedding of get_parameters (main.py lines 106-117): from a tuple
(a, b_ac, c) produces (a, b_ac - a - c, c). -/
def get_parameters (parameters : ℚ × ℚ × ℚ) : ℚ × ℚ × ℚ :=
  (parameters.1, parameters.2.1 - parameters.1 - parameters.2.2, parameters.2.2)

/-- Embedding of interpolate (main.py lines 119-127): blends the endpoint
pair linearly, one output value per grid point. -/
def interpolate (values_to_interpolate : ℚ × ℚ) (x_list : List ℚ) : List ℚ :=
  x_list.map (fun x => values_to_interpolate.1 * (1 - x) + values_to_interpolate.2 * x)

/-- Embedding of include_temperature (main.py lines 129-138): applies the
Varshni correction alpha T^2 / (T + beta) with interpolated coefficients.
Out-of-range indexing in the Python comprehension is modelled with getD. -/
def include_temperature (energy_gap : List ℚ) (x_list : List ℚ) (temperature : ℤ) : List ℚ :=
  let alpha := interpolate PARAMETERS_TEMPERATURE.alpha x_list
  let beta := interpolate PARAMETERS_TEMPERATURE.beta x_list
  (List.range energy_gap.length).map (fun i =>
    energy_gap.getD i 0 -
      alpha.getD i 0 * ((temperature : ℚ) ^ 2) / ((temperature : ℚ) + beta.getD i 0))

/-- In-plane strain list from calculate_strained_bands (main.py line 162). -/
def eps_x_list (x_list : List ℚ) : List ℚ :=
  (List.range x_list.length).map (fun i =>
    (PARAMETERS_BANDS.lattice_a_0 - (interpolate PARAMETERS_BANDS.lattice_a x_list).getD i 0) /
      (interpolate PARAMETERS_BANDS.lattice_a x_list).getD i 0)

/-- Out-of-plane strain list from calculate_strained_bands (main.py line 163). -/
def eps_z_list (x_list : List ℚ) : List ℚ :=
  (List.range x_list.length).map (fun i =>
    (eps_x_list x_list).getD i 0 * (-2) *
      ((interpolate PARAMETERS_BANDS.C_12 x_list).getD i 0 /
        (interpolate PARAMETERS_BANDS.C_11 x_list).getD i 0))

/-- Strain splitting list dE_s from calculate_strained_bands (main.py line 164). -/
def dE_s (x_list : List ℚ) : List ℚ :=
  (List.range x_list.length).map (fun i =>
    -(interpolate PARAMETERS_BANDS.b x_list).getD i 0 *
      ((eps_z_list x_list).getD i 0 - (eps_x_list x_list).getD i 0))

/-- Hydrostatic conduction shift list dE_hc (main.py line 165). -/
def dE_hc (x_list : List ℚ) : List ℚ :=
  (List.range x_list.length).map (fun i =>
    (interpolate PARAMETERS_BANDS.a_c x_list).getD i 0 *
      (2 * (eps_x_list x_list).getD i 0 + (eps_z_list x_list).getD i 0))

/-- Hydrostatic valence shift list dE_hv (main.py line 166). -/
def dE_hv (x_list : List ℚ) : List ℚ :=
  (List.range x_list.length).map (fun i =>
    (interpolate PARAMETERS_BANDS.a_v x_list).getD i 0 *
      (2 * (eps_x_list x_list).getD i 0 + (eps_z_list x_list).getD i 0))

/-- Embedding of calculate_strained_bands (main.py lines 149-170): returns
(strained conduction band, heavy hole band, light hole band). -/
def calculate_strained_bands (valence_band conduction_band x_list : List ℚ) :
    List ℚ × List ℚ × List ℚ :=
  ((List.range x_list.length).map (fun i =>
      conduction_band.getD i 0 + (dE_hc x_list).getD i 0),
   (List.range x_list.length).map (fun i =>
      valence_band.getD i 0 + (dE_hv x_list).getD i 0 + (dE_s x_list).getD i 0),
   (List.range x_list.length).map (fun i =>
      valence_band.getD i 0 + (dE_hv x_list).getD i 0 - (dE_s x_list).getD i 0))

/-- Python int() conversion of a rational: truncation toward zero. -/
def py_int (q : ℚ) : ℤ :=
  if 0 ≤ q then ⌊q⌋ else ⌈q⌉

/-- Python list subscript with a possibly negative index: a nonnegative
index k reads element k, a negative index k reads element length + k, and
anything out of range is an IndexError, modelled as none. -/
def py_get (l : List ℚ) (k : ℤ) : Option ℚ :=
  if 0 ≤ k then l[k.toNat]?
  else if 0 ≤ (l.length : ℤ) + k then l[((l.length : ℤ) + k).toNat]?
  else none

/-- Membership test of a spatial position in the Python window
range(int(500 - well_width/2), int(501 + well_width/2)) used by
create_quantum_well (main.py line 192). -/
def in_well_window (well_width : ℚ) (x : ℕ) : Bool :=
  decide (py_int (500 - well_width / 2) ≤ (x : ℤ) ∧ (x : ℤ) < py_int (501 + well_width / 2))

/-- Sequences a list of optional values: the first none (a raised
IndexError) aborts the whole computation. -/
def opts_to_list : List (Option ℚ) → Option (List ℚ)
  | [] => some []
  | none :: _ => none
  | some v :: rest => Option.map (fun l => v :: l) (opts_to_list rest)

/-- Builds one spatial profile of create_quantum_well: the interior value
(an optional value, none when the band lookup raises) inside the window,
the exterior value outside, over the 1001-point position grid. -/
def well_profile (well_width : ℚ) (interior : Option ℚ) (exterior : ℚ) : Option (List ℚ) :=
  opts_to_list ((List.range 1001).map (fun x =>
    if in_well_window well_width x then interior else some exterior))

/-- Embedding of create_quantum_well (main.py lines 172-201), restricted to
its numeric content: produces the five spatial profiles (valence_hh,
valence_lh, conduction, conduction_no_tension, valence_no_tension), or
none when a list access raises an IndexError. The band series are read at
index int(composition * 100) and offset by the valence-band-lineup
reference VBO[1]; conduction profiles use energy_list[0] as base value. -/
def create_quantum_well (energy_list valence_band conduction_band heavy_holes
    light_holes conduction_tension : List ℚ) (well_width : ℚ) (composition : ℚ) :
    Option (List ℚ × List ℚ × List ℚ × List ℚ × List ℚ) :=
  let comp_idx := py_int (composition * 100)
  let vbo_b := PARAMETERS_BANDS.VBO.2
  Option.bind (py_get energy_list 0) (fun e0 =>
  Option.bind (well_profile well_width
      (Option.map (fun v => v - vbo_b) (py_get heavy_holes comp_idx)) 0) (fun valence_hh =>
  Option.bind (well_profile well_width
      (Option.map (fun v => v - vbo_b) (py_get light_holes comp_idx)) 0) (fun valence_lh =>
  Option.bind (well_profile well_width
      (Option.map (fun v => v - vbo_b) (py_get conduction_tension comp_idx)) e0) (fun conduction =>
  Option.bind (well_profile well_width
      (Option.map (fun v => v - vbo_b) (py_get conduction_band comp_idx)) e0) (fun conduction_no_tension =>
  Option.bind (well_profile well_width
      (Option.map (fun v => v - vbo_b) (py_get valence_band comp_idx)) 0) (fun valence_no_tension =>
  some (valence_hh, valence_lh, conduction, conduction_no_tension, valence_no_tension)))))))

/-- Fueled embedding of the while-loop of bisection (main.py lines 264-272).
The state is the current bracket; the tested point is always the bracket
midpoint. Returns none when the fuel runs out before the loop returns. -/
def bisectLoop (f : ℚ → ℚ) (tolerance : ℚ) : ℕ → ℚ → ℚ → Option (Option ℚ)
  | 0, _, _ => none
  | fuel + 1, x_min, x_max =>
    let x_intercept := (x_min + x_max) / 2
    if |f x_intercept| ≤ tolerance then some (some x_intercept)
    else if f x_min * f x_intercept ≤ 0 then bisectLoop f tolerance fuel x_min x_intercept
    else if f x_max * f x_intercept ≤ 0 then bisectLoop f tolerance fuel x_intercept x_max
    else some none

/-- Fueled embedding of the recursive refinement phase of bisection
(main.py lines 259-263): while both halves of the bracket pass the
sign-change test, the call restarts on the right half; otherwise control
falls through to the while-loop. -/
def bisectMain (f : ℚ → ℚ) (tolerance : ℚ) : ℕ → ℚ → ℚ → Option (Option ℚ)
  | 0, _, _ => none
  | fuel + 1, x_min, x_max =>
    let x_intercept := (x_min + x_max) / 2
    if f x_min * f x_intercept ≤ 0 ∧ f x_max * f x_intercept ≤ 0 then
      bisectMain f tolerance fuel x_intercept x_max
    else
      bisectLoop f tolerance fuel x_min x_max

/-- Embedding of bisection (main.py lines 255-272). The scalar function is
evaluated as function x args.1 args.2, matching the Python call
function(x, i, x_list) with args = (i, x_list). -/
def bisection (function : ℚ → ℕ → List ℚ → ℚ) (x_min x_max : ℚ) (args : ℕ × List ℚ)
    (tolerance : ℚ) (fuel : ℕ) : Option (Option ℚ) :=
  bisectMain (fun x => function x args.1 args.2) tolerance fuel x_min x_max

/-- Default tolerance of bisection, 10^-12. -/
def default_tolerance : ℚ := 10 ^ (-(12:ℤ))

/-- Termination of the bisection routine on a given input: some amount of
fuel suffices for it to return (either a value or the None sentinel). -/
def BisectionTerminates (function : ℚ → ℕ → List ℚ → ℚ) (x_min x_max : ℚ)
    (args : ℕ × List ℚ) (tolerance : ℚ) : Prop :=
  ∃ fuel, (bisection function x_min x_max args tolerance fuel).isSome

/-- Execution trace of the refinement phase: the brackets reachable from a
starting bracket by right-half refinement steps whose guards hold. -/
inductive RefineReach (g : ℚ → ℚ) : ℚ → ℚ → ℚ → ℚ → Prop
  | refl (a b : ℚ) : RefineReach g a b a b
  | step {a b a' b' : ℚ}
      (h_left : g a * g ((a + b) / 2) ≤ 0)
      (h_right : g b * g ((a + b) / 2) ≤ 0)
      (h_tail : RefineReach g ((a + b) / 2) b a' b') :
      RefineReach g a b a' b'

/-- Execution trace of the while-loop phase: the brackets reachable from a
starting bracket by loop iterations whose guards hold. -/
inductive LoopReach (g : ℚ → ℚ) (tolerance : ℚ) : ℚ → ℚ → ℚ → ℚ → Prop
  | refl (a b : ℚ) : LoopReach g tolerance a b a b
  | left {a b a' b' : ℚ}
      (h_cont : tolerance < |g ((a + b) / 2)|)
      (h_left : g a * g ((a + b) / 2) ≤ 0)
      (h_tail : LoopReach g tolerance a ((a + b) / 2) a' b') :
      LoopReach g tolerance a b a' b'
  | right {a b a' b' : ℚ}
      (h_cont : tolerance < |g ((a + b) / 2)|)
      (h_not_left : ¬ g a * g ((a + b) / 2) ≤ 0)
      (h_right : g b * g ((a + b) / 2) ≤ 0)
      (h_tail : LoopReach g tolerance ((a + b) / 2) b a' b') :
      LoopReach g tolerance a b a' b'

/-- A bracket reached by the loop on which the routine returns None: the
loop is still running (midpoint residual above tolerance) and neither the
left nor the right subinterval passes the sign-change test. -/
def NoBracketState (g : ℚ → ℚ) (tolerance a b : ℚ) : Prop :=
  tolerance < |g ((a + b) / 2)| ∧
    ¬ g a * g ((a + b) / 2) ≤ 0 ∧ ¬ g b * g ((a + b) / 2) ≤ 0

/-- Full execution trace of bisection: refinement steps from the initial
bracket, hand-off to the loop when the both-halves condition fails, then
loop iterations. -/
def ReachesLoopState (g : ℚ → ℚ) (tolerance x_min x_max a b : ℚ) : Prop :=
  ∃ a0 b0, RefineReach g x_min x_max a0 b0 ∧
    ¬(g a0 * g ((a0 + b0) / 2) ≤ 0 ∧ g b0 * g ((a0 + b0) / 2) ≤ 0) ∧
    LoopReach g tolerance a0 b0 a b

/-- Constant zero test function, in the three-argument shape bisection expects. -/
def zero_fn : ℚ → ℕ → List ℚ → ℚ := fun _ _ _ => 0

/-- Constant one test function. -/
def one_fn : ℚ → ℕ → List ℚ → ℚ := fun _ _ _ => 1

/-- Affine test function with root 1/2. -/
def shift_fn : ℚ → ℕ → List ℚ → ℚ := fun x _ _ => x - 1/2

/-- Embedding of matthews_blakeslee_model (main.py lines 241-253). The
transcendental operations have no exact rational counterpart, so the
natural logarithm, sqrt(2) and pi are passed as oracle parameters rlog,
sqrt2 and rpi; everything else follows the source formula. -/
def matthews_blakeslee_model (rlog : ℚ → ℚ) (sqrt2 rpi : ℚ)
    (h_c : ℚ) (i : ℕ) (x_list : List ℚ) : ℚ :=
  let interpolated_lattice := interpolate PARAMETERS_BANDS.lattice_a x_list
  let c11_interpolated := interpolate PARAMETERS_BANDS.C_11 x_list
  let c12_interpolated := interpolate PARAMETERS_BANDS.C_12 x_list
  let b := interpolated_lattice.getD i 0 / sqrt2
  let v := c12_interpolated.getD i 0 / (c11_interpolated.getD i 0 + c12_interpolated.getD i 0)
  let f := |(PARAMETERS_BANDS.lattice_a_0 - interpolated_lattice.getD i 0) /
    interpolated_lattice.getD i 0|
  (b / (2 * f * rpi)) * ((1 - 0.25 * v) / (1 + v)) * (rlog (h_c / b) + 1) - h_c

/-- Embedding of the series construction in calculate_critical_thickness
(main.py lines 275-284): one bisection result per grid point except the
last, which is 3 times the previous entry. Entries carry the fueled
bisection result type. -/
def calculate_critical_thickness (rlog : ℚ → ℚ) (sqrt2 rpi : ℚ) (fuel : ℕ)
    (x_list : List ℚ) : List (Option (Option ℚ)) :=
  let no_iterations := x_list.length - 1
  let temp := (List.range no_iterations).map (fun i =>
    bisection (matthews_blakeslee_model rlog sqrt2 rpi) 10 7000 (i, x_list)
      default_tolerance fuel)
  temp ++ [Option.map (Option.map (fun h => 3 * h)) (temp.getD (no_iterations - 1) none)]

/-! ## Helper lemmas about list indexing -/

theorem getD_range_map {α : Type} (g : ℕ → α) (d : α) (n i : ℕ) (h : i < n) :
    ((List.range n).map g).getD i d = g i := by
  rw [List.getD_eq_getElem?_getD, List.getElem?_map, List.getElem?_range h]
  rfl

theorem getD_map_of_lt (f : ℚ → ℚ) (l : List ℚ) (i : ℕ) (h : i < l.length) :
    (l.map f).getD i 0 = f (l.getD i 0) := by
  rw [List.getD_eq_getElem?_getD, List.getElem?_map, List.getElem?_eq_getElem h,
    List.getD_eq_getElem?_getD, List.getElem?_eq_getElem h]
  rfl

/-! ## Helper lemmas about the fueled bisection -/

theorem bisectLoop_sound (g : ℚ → ℚ) (tol : ℚ) :
    ∀ (fuel : ℕ) (a b t : ℚ), bisectLoop g tol fuel a b = some (some t) → |g t| ≤ tol := by
  intro fuel
  induction fuel with
  | zero => intro a b t h; simp [bisectLoop] at h
  | succ n ih =>
    intro a b t h
    simp only [bisectLoop] at h
    split_ifs at h with h1 h2 h3
    · simp only [Option.some.injEq] at h
      rw [← h]; exact h1
    · exact ih a ((a + b) / 2) t h
    · exact ih ((a + b) / 2) b t h
    · simp at h

theorem bisectMain_sound (g : ℚ → ℚ) (tol : ℚ) :
    ∀ (fuel : ℕ) (a b t : ℚ), bisectMain g tol fuel a b = some (some t) → |g t| ≤ tol := by
  intro fuel
  induction fuel with
  | zero => intro a b t h; simp [bisectMain] at h
  | succ n ih =>
    intro a b t h
    simp only [bisectMain] at h
    split_ifs at h with hc
    · exact ih _ _ _ h
    · exact bisectLoop_sound g tol n _ _ _ h

theorem bisectLoop_none_reach (g : ℚ → ℚ) (tol : ℚ) :
    ∀ (fuel : ℕ) (a b : ℚ), bisectLoop g tol fuel a b = some none →
      ∃ a' b', LoopReach g tol a b a' b' ∧ NoBracketState g tol a' b' := by
  intro fuel
  induction fuel with
  | zero => intro a b h; simp [bisectLoop] at h
  | succ n ih =>
    intro a b h
    simp only [bisectLoop] at h
    split_ifs at h with h1 h2 h3
    · simp at h
    · obtain ⟨a', b', hr, hs⟩ := ih a ((a + b) / 2) h
      exact ⟨a', b', LoopReach.left (not_le.mp h1) h2 hr, hs⟩
    · obtain ⟨a', b', hr, hs⟩ := ih ((a + b) / 2) b h
      exact ⟨a', b', LoopReach.right (not_le.mp h1) h2 h3 hr, hs⟩
    · exact ⟨a, b, LoopReach.refl a b, not_le.mp h1, h2, h3⟩

theorem bisectLoop_reach_none (g : ℚ → ℚ) (tol : ℚ) {a b a' b' : ℚ}
    (hr : LoopReach g tol a b a' b') :
    NoBracketState g tol a' b' → ∃ fuel, bisectLoop g tol fuel a b = some none := by
  induction hr with
  | refl a b =>
    intro hs
    refine ⟨1, ?_⟩
    simp only [bisectLoop]
    rw [if_neg (not_le.mpr hs.1), if_neg hs.2.1, if_neg hs.2.2]
  | left h_cont h_left _ ih =>
    intro hs
    obtain ⟨n, hn⟩ := ih hs
    refine ⟨n + 1, ?_⟩
    simp only [bisectLoop]
    rw [if_neg (not_le.mpr h_cont), if_pos h_left]
    exact hn
  | right h_cont h_not_left h_right _ ih =>
    intro hs
    obtain ⟨n, hn⟩ := ih hs
    refine ⟨n + 1, ?_⟩
    simp only [bisectLoop]
    rw [if_neg (not_le.mpr h_cont), if_neg h_not_left, if_pos h_right]
    exact hn

theorem bisectMain_none_reach (g : ℚ → ℚ) (tol : ℚ) :
    ∀ (fuel : ℕ) (a b : ℚ), bisectMain g tol fuel a b = some none →
      ∃ a0 b0, RefineReach g a b a0 b0 ∧
        ¬(g a0 * g ((a0 + b0) / 2) ≤ 0 ∧ g b0 * g ((a0 + b0) / 2) ≤ 0) ∧
        ∃ k, bisectLoop g tol k a0 b0 = some none := by
  intro fuel
  induction fuel with
  | zero => intro a b h; simp [bisectMain] at h
  | succ n ih =>
    intro a b h
    simp only [bisectMain] at h
    split_ifs at h with hc
    · obtain ⟨a0, b0, hr, hnc, hk⟩ := ih _ _ h
      exact ⟨a0, b0, RefineReach.step hc.1 hc.2 hr, hnc, hk⟩
    · exact ⟨a, b, RefineReach.refl a b, hc, n, h⟩

theorem bisectMain_reach_none (g : ℚ → ℚ) (tol : ℚ) {a b a0 b0 : ℚ}
    (hr : RefineReach g a b a0 b0) :
    ¬(g a0 * g ((a0 + b0) / 2) ≤ 0 ∧ g b0 * g ((a0 + b0) / 2) ≤ 0) →
    ∀ k, bisectLoop g tol k a0 b0 = some none →
    ∃ fuel, bisectMain g tol fuel a b = some none := by
  induction hr with
  | refl a b =>
    intro hc k hk
    refine ⟨k + 1, ?_⟩
    simp only [bisectMain]
    rw [if_neg hc]
    exact hk
  | step h_left h_right _ ih =>
    intro hc k hk
    obtain ⟨n, hn⟩ := ih hc k hk
    refine ⟨n + 1, ?_⟩
    simp only [bisectMain]
    rw [if_pos ⟨h_left, h_right⟩]
    exact hn

theorem bisectMain_zero (g : ℚ → ℚ) (tol : ℚ) (hg : ∀ x, g x = 0) :
    ∀ (fuel : ℕ) (a b : ℚ), bisectMain g tol fuel a b = none := by
  intro fuel
  induction fuel with
  | zero => intro a b; rfl
  | succ n ih =>
    intro a b
    simp only [bisectMain]
    rw [if_pos ⟨by simp [hg], by simp [hg]⟩]
    exact ih _ _

theorem bisectMain_isSome_of_pos (g : ℚ → ℚ) (tol : ℚ) (hg : ∀ x, 0 < g x) :
    ∀ (fuel : ℕ), 2 ≤ fuel → ∀ (a b : ℚ), (bisectMain g tol fuel a b).isSome := by
  intro fuel hfuel a b
  obtain ⟨k, rfl⟩ : ∃ k, fuel = k + 2 := ⟨fuel - 2, by omega⟩
  have hprod : ∀ x y : ℚ, ¬ g x * g y ≤ 0 :=
    fun x y => not_le.mpr (mul_pos (hg x) (hg y))
  simp only [bisectMain]
  rw [if_neg (fun hcc => hprod _ _ hcc.1)]
  simp only [bisectLoop]
  split_ifs with h1 h2 h3
  · simp
  · exact absurd h2 (hprod _ _)
  · exact absurd h3 (hprod _ _)
  · simp

/-! ## Claims C1, C2, C3 about the bisection routine -/

/-- C1: for every scalar function, bracket, args and tolerance, whenever
bisection returns a thickness t it satisfies the tolerance contract
|f(t, i, x_list)| ≤ tolerance, and it returns None exactly when its
execution reaches a loop bracket at which neither the left subinterval
[x_min, midpoint] nor the right subinterval [midpoint, x_max] passes the
sign-change test. -/
theorem bisection_contract (function : ℚ → ℕ → List ℚ → ℚ) (x_min x_max : ℚ)
    (args : ℕ × List ℚ) (tolerance : ℚ) :
    (∀ fuel t, bisection function x_min x_max args tolerance fuel = some (some t) →
      |function t args.1 args.2| ≤ tolerance) ∧
    ((∃ fuel, bisection function x_min x_max args tolerance fuel = some none) ↔
      ∃ a b, ReachesLoopState (fun x => function x args.1 args.2) tolerance x_min x_max a b ∧
        NoBracketState (fun x => function x args.1 args.2) tolerance a b) := by
  constructor
  · intro fuel t h
    exact bisectMain_sound (fun x => function x args.1 args.2) tolerance fuel x_min x_max t h
  · constructor
    · rintro ⟨fuel, h⟩
      obtain ⟨a0, b0, hr, hnc, k, hk⟩ :=
        bisectMain_none_reach (fun x => function x args.1 args.2) tolerance fuel x_min x_max h
      obtain ⟨a, b, hl, hs⟩ :=
        bisectLoop_none_reach (fun x => function x args.1 args.2) tolerance k a0 b0 hk
      exact ⟨a, b, ⟨a0, b0, hr, hnc, hl⟩, hs⟩
    · rintro ⟨a, b, ⟨a0, b0, hr, hnc, hl⟩, hs⟩
      obtain ⟨k, hk⟩ := bisectLoop_reach_none (fun x => function x args.1 args.2) tolerance hl hs
      exact bisectMain_reach_none (fun x => function x args.1 args.2) tolerance hr hnc k hk

/-- Witness for C1: on the affine function x - 1/2 over [0, 1] with
tolerance 1, bisection returns 3/4 and the contract gives |f(3/4)| ≤ 1. -/
theorem bisection_contract_witness :
    bisection shift_fn 0 1 (0, []) 1 3 = some (some (3/4)) ∧ |shift_fn (3/4) 0 []| ≤ 1 := by
  have heval : bisection shift_fn 0 1 (0, []) 1 3 = some (some (3/4)) := by
    norm_num [bisection, bisectMain, bisectLoop, shift_fn, abs_of_nonneg, abs_of_nonpos]
  exact ⟨heval, (bisection_contract shift_fn 0 1 (0, []) 1).1 3 (3/4) heval⟩

/-- C2 counterexample: bisection does not terminate on every input. On the
identically zero function both halves always pass the sign-change test, so
the initial recursive refinement restarts forever and no amount of fuel
makes the routine return. -/
theorem bisection_zero_fn_no_termination :
    ¬ BisectionTerminates zero_fn 0 1 (0, []) default_tolerance := by
  rintro ⟨fuel, h⟩
  rw [bisection, bisectMain_zero (fun x => zero_fn x (0, ([] : List ℚ)).1 (0, ([] : List ℚ)).2)
    default_tolerance (fun x => rfl)] at h
  simp at h

/-- C2 amended: termination does not hold for every input (see the
counterexample on the zero function), but for the pathological inputs the
claim singles out, where the bracket contains no sign change because the
function is everywhere positive, both phases reach a return: fuel 2
already suffices, the refinement guard failing at once and the loop
returning in its first iteration. -/
theorem bisection_terminates_of_positive (function : ℚ → ℕ → List ℚ → ℚ)
    (x_min x_max : ℚ) (args : ℕ × List ℚ) (tolerance : ℚ)
    (h_pos : ∀ x, 0 < function x args.1 args.2) :
    BisectionTerminates function x_min x_max args tolerance := by
  exact ⟨2, bisectMain_isSome_of_pos (fun x => function x args.1 args.2)
    tolerance h_pos 2 le_rfl x_min x_max⟩

/-- Witness for C2 amended: the constant one function is everywhere
positive and bisection terminates on it. -/
theorem bisection_terminates_of_positive_witness :
    (∀ x : ℚ, 0 < one_fn x 0 []) ∧ BisectionTerminates one_fn 0 1 (0, []) default_tolerance :=
  ⟨fun _ => one_pos,
    bisection_terminates_of_positive one_fn 0 1 (0, []) default_tolerance (fun _ => one_pos)⟩

/-- C3: when both the left half and the right half of the bracket pass the
sign-change test, bisection restarts on the right half [midpoint, x_max],
regardless of which half contains the root. -/
theorem bisection_prefers_right_half (function : ℚ → ℕ → List ℚ → ℚ)
    (x_min x_max : ℚ) (args : ℕ × List ℚ) (tolerance : ℚ) (fuel : ℕ)
    (h_left : function x_min args.1 args.2 *
      function ((x_min + x_max) / 2) args.1 args.2 ≤ 0)
    (h_right : function x_max args.1 args.2 *
      function ((x_min + x_max) / 2) args.1 args.2 ≤ 0) :
    bisection function x_min x_max args tolerance (fuel + 1) =
      bisection function ((x_min + x_max) / 2) x_max args tolerance fuel := by
  rw [bisection, bisection]
  simp only [bisectMain]
  rw [if_pos ⟨h_left, h_right⟩]

/-- Witness for C3: on the zero function both halves of [0, 1] pass the
sign-change test and the bracket is narrowed to [1/2, 1]. -/
theorem bisection_prefers_right_half_witness :
    zero_fn 0 0 [] * zero_fn ((0 + 1) / 2) 0 [] ≤ 0 ∧
    bisection zero_fn 0 1 (0, []) default_tolerance 3 =
      bisection zero_fn ((0 + 1) / 2) 1 (0, []) default_tolerance 2 :=
  ⟨by norm_num [zero_fn],
    bisection_prefers_right_half zero_fn 0 1 (0, []) default_tolerance 2
      (by norm_num [zero_fn]) (by norm_num [zero_fn])⟩

/-! ## Claim C4 about the linear interpolator -/

/-- C4: interpolate returns one value per grid point, each equal to
v0 (1 - x) + v1 x; it returns v0 where the grid value is 0 and v1 where
the grid value is 1, and the pointwise formula is affine in the grid
value: evaluating at the combination (1-t) x + t y equals the t-weighted
combination of the evaluations at x and at y. -/
theorem interpolate_affine (v : ℚ × ℚ) (x_list : List ℚ) :
    (interpolate v x_list).length = x_list.length ∧
    (∀ i, i < x_list.length →
      (interpolate v x_list).getD i 0 =
        v.1 * (1 - x_list.getD i 0) + v.2 * x_list.getD i 0) ∧
    (∀ i, i < x_list.length → x_list.getD i 0 = 0 →
      (interpolate v x_list).getD i 0 = v.1) ∧
    (∀ i, i < x_list.length → x_list.getD i 0 = 1 →
      (interpolate v x_list).getD i 0 = v.2) ∧
    (∀ t x y : ℚ, (interpolate v [(1 - t) * x + t * y]).getD 0 0 =
      (1 - t) * (interpolate v [x]).getD 0 0 + t * (interpolate v [y]).getD 0 0) := by
  have hpt : ∀ i, i < x_list.length →
      (interpolate v x_list).getD i 0 =
        v.1 * (1 - x_list.getD i 0) + v.2 * x_list.getD i 0 := by
    intro i h
    rw [interpolate, getD_map_of_lt _ _ _ h]
  refine ⟨by simp [interpolate], hpt, ?_, ?_, ?_⟩
  · intro i h hx
    rw [hpt i h, hx]; ring
  · intro i h hx
    rw [hpt i h, hx]; ring
  · intro t x y
    simp only [interpolate, List.map_cons, List.map_nil, List.getD_cons_zero]
    ring

/-- Witness for C4: with endpoints (3, 5) on the grid [0, 1] the value at
grid index 0 follows the pointwise formula. -/
theorem interpolate_affine_witness :
    0 < ([0, 1] : List ℚ).length ∧
    (interpolate (3, 5) [0, 1]).getD 0 0 =
      (3:ℚ) * (1 - ([0, 1] : List ℚ).getD 0 0) + 5 * ([0, 1] : List ℚ).getD 0 0 :=
  ⟨by norm_num, (interpolate_affine (3, 5) [0, 1]).2.1 0 (by norm_num)⟩

/-! ## Claim C5 about the Gamma-point energies -/

/-- C5: the Gamma-point tuple (0.235, 0.417, 0.67) yields b = -0.488
through get_parameters, and the energy series of calculate_energy equals
0.235 at grid point x = 0 (index 0), 0.1585 at grid point x = 0.5
(index 50) and 0.417 at grid point x = 1 (index 100). -/
theorem gamma_point_energy_values :
    get_parameters (0.235, 0.417, 0.67) = (0.235, -0.488, 0.67) ∧
    (calculate_energy 0.235 (-0.488) 0.67).1.getD 0 0 = 0 ∧
    (calculate_energy 0.235 (-0.488) 0.67).1.getD 50 0 = 0.5 ∧
    (calculate_energy 0.235 (-0.488) 0.67).1.getD 100 0 = 1 ∧
    (calculate_energy 0.235 (-0.488) 0.67).2.getD 0 0 = 0.235 ∧
    (calculate_energy 0.235 (-0.488) 0.67).2.getD 50 0 = 0.1585 ∧
    (calculate_energy 0.235 (-0.488) 0.67).2.getD 100 0 = 0.417 := by
  refine ⟨by norm_num [get_parameters], ?_, ?_, ?_, ?_, ?_, ?_⟩ <;>
  · simp only [calculate_energy, List.map_map]
    rw [getD_range_map _ _ _ _ (by norm_num)]
    norm_num

/-! ## Claim C6 about the strained band identities -/

/-- C6: at every grid point, the strained conduction band differs from the
conduction band by the hydrostatic shift dE_hc, and the heavy-hole band
differs from the light-hole band by twice the strain splitting dE_s. -/
theorem strained_bands_identities (valence_band conduction_band x_list : List ℚ) (i : ℕ)
    (h : i < x_list.length) :
    (calculate_strained_bands valence_band conduction_band x_list).1.getD i 0 -
      conduction_band.getD i 0 = (dE_hc x_list).getD i 0 ∧
    (calculate_strained_bands valence_band conduction_band x_list).2.1.getD i 0 -
      (calculate_strained_bands valence_band conduction_band x_list).2.2.getD i 0 =
      2 * (dE_s x_list).getD i 0 := by
  constructor
  · simp only [calculate_strained_bands]
    rw [getD_range_map _ _ _ _ h]
    ring
  · simp only [calculate_strained_bands]
    rw [getD_range_map _ _ _ _ h, getD_range_map _ _ _ _ h]
    ring

/-- Witness for C6: the identities hold at index 0 of the grid [0] with
valence band [1] and conduction band [2]. -/
theorem strained_bands_identities_witness :
    0 < ([0] : List ℚ).length ∧
    ((calculate_strained_bands [1] [2] [0]).1.getD 0 0 - ([2] : List ℚ).getD 0 0 =
      (dE_hc [0]).getD 0 0 ∧
     (calculate_strained_bands [1] [2] [0]).2.1.getD 0 0 -
      (calculate_strained_bands [1] [2] [0]).2.2.getD 0 0 = 2 * (dE_s [0]).getD 0 0) :=
  ⟨by norm_num, strained_bands_identities [1] [2] [0] 0 (by norm_num)⟩

/-! ## Claim C10 about the zero-temperature Varshni correction -/

/-- C10: at temperature 0 the Varshni correction vanishes, so
include_temperature returns the energy series unchanged. The hypotheses
restrict to the domain where the Python code runs without an exception:
the energy series no longer than the grid, and grid values in [0, 1] so
the interpolated beta coefficient is nonzero. -/
theorem include_temperature_zero (energy_gap x_list : List ℚ)
    (h_len : energy_gap.length ≤ x_list.length)
    (h_grid : ∀ x ∈ x_list, 0 ≤ x ∧ x ≤ 1) :
    include_temperature energy_gap x_list 0 = energy_gap := by
  apply List.ext_getElem
  · simp [include_temperature]
  · intro i h1 h2
    simp only [include_temperature, List.getElem_map, List.getElem_range, Int.cast_zero]
    norm_num
    rw [List.getElem?_eq_getElem h2]
    rfl

/-- Witness for C10: on the series [1, 2] over the grid [0, 1/2] the
temperature-0 correction changes nothing. -/
theorem include_temperature_zero_witness :
    ([1, 2] : List ℚ).length ≤ ([0, 1/2] : List ℚ).length ∧
    include_temperature [1, 2] [0, 1/2] 0 = [1, 2] :=
  ⟨by norm_num, include_temperature_zero [1, 2] [0, 1/2] (by norm_num)
    (by intro x hx; simp only [List.mem_cons, List.not_mem_nil, or_false] at hx
        rcases hx with rfl | rfl <;> norm_num)⟩

/-! ## Claim C7 about the critical thickness series -/

/-- C7: on a 101-point composition grid the critical thickness series has
exactly one entry per grid point; each of the first 100 entries is the
bisection result for the Matthews-Blakeslee function on the bracket
[10, 7000] at that composition index with the default tolerance, and the
final entry is 3 times the second-to-last entry instead of a root-finding
result. The transcendental oracles and the fuel are universally
quantified. -/
theorem critical_thickness_structure (rlog : ℚ → ℚ) (sqrt2 rpi : ℚ) (fuel : ℕ)
    (x_list : List ℚ) (h : x_list.length = 101) :
    (calculate_critical_thickness rlog sqrt2 rpi fuel x_list).length = 101 ∧
    (∀ i, i < 100 →
      (calculate_critical_thickness rlog sqrt2 rpi fuel x_list).getD i none =
        bisection (matthews_blakeslee_model rlog sqrt2 rpi) 10 7000 (i, x_list)
          default_tolerance fuel) ∧
    (calculate_critical_thickness rlog sqrt2 rpi fuel x_list).getD 100 none =
      Option.map (Option.map (fun t => 3 * t))
        ((calculate_critical_thickness rlog sqrt2 rpi fuel x_list).getD 99 none) := by
  have hn : x_list.length - 1 = 100 := by omega
  have hmap : ∀ i, i < 100 →
      ((List.range 100).map (fun i => bisection (matthews_blakeslee_model rlog sqrt2 rpi)
        10 7000 (i, x_list) default_tolerance fuel)).getD i none =
      bisection (matthews_blakeslee_model rlog sqrt2 rpi) 10 7000 (i, x_list)
        default_tolerance fuel := by
    intro i hi
    exact getD_range_map _ _ _ _ hi
  refine ⟨?_, ?_, ?_⟩
  · simp [calculate_critical_thickness, hn]
  · intro i hi
    simp only [calculate_critical_thickness, hn]
    rw [List.getD_eq_getElem?_getD,
      List.getElem?_append_left (by simpa using hi),
      ← List.getD_eq_getElem?_getD]
    exact hmap i hi
  · simp only [calculate_critical_thickness, hn]
    set temp := List.map (fun i => bisection (matthews_blakeslee_model rlog sqrt2 rpi)
      10 7000 (i, x_list) default_tolerance fuel) (List.range 100) with htemp
    have hlen : temp.length = 100 := by rw [htemp]; simp
    have h100 : ∀ e : Option (Option ℚ), (temp ++ [e]).getD 100 none = e := by
      intro e
      rw [List.getD_eq_getElem?_getD, List.getElem?_append_right (by omega), hlen]
      norm_num
    have h99 : ∀ e : Option (Option ℚ), (temp ++ [e]).getD 99 none = temp.getD 99 none := by
      intro e
      rw [List.getD_eq_getElem?_getD, List.getElem?_append_left (by omega),
        ← List.getD_eq_getElem?_getD]
    rw [h100, h99]

/-- Witness for C7: with zero oracles, zero fuel and the constant grid of
101 zeros, the series has 101 entries. -/
theorem critical_thickness_structure_witness :
    (List.replicate 101 (0:ℚ)).length = 101 ∧
    (calculate_critical_thickness (fun _ => 0) 0 0 0 (List.replicate 101 (0:ℚ))).length = 101 :=
  ⟨by simp,
    (critical_thickness_structure (fun _ => 0) 0 0 0 (List.replicate 101 (0:ℚ)) (by simp)).1⟩

/-! ## Helper lemmas about the quantum well builder -/

theorem getElem?_isSome_iff {α : Type} (l : List α) (i : ℕ) : l[i]?.isSome ↔ i < l.length := by
  by_cases h : i < l.length
  · simp [List.getElem?_eq_getElem h, h]
  · simp [List.getElem?_eq_none (Nat.le_of_not_lt h), h]

theorem opts_to_list_all_some (l : List ℕ) (g : ℕ → ℚ) :
    opts_to_list (l.map (fun x => some (g x))) = some (l.map g) := by
  induction l with
  | nil => rfl
  | cons a t ih => simp [opts_to_list, ih]

theorem opts_to_list_none_of_mem (l : List (Option ℚ)) (hl : none ∈ l) :
    opts_to_list l = none := by
  induction l with
  | nil => simp at hl
  | cons a t ih =>
    cases a with
    | none => rfl
    | some v =>
      simp only [List.mem_cons] at hl
      rcases hl with h | h
      · exact absurd h (by simp)
      · simp [opts_to_list, ih h]

theorem well_profile_some (w : ℚ) (v ext : ℚ) :
    well_profile w (some v) ext =
      some ((List.range 1001).map (fun x => if in_well_window w x then v else ext)) := by
  have hfun : (fun x : ℕ => if in_well_window w x then (some v : Option ℚ) else some ext) =
      fun x : ℕ => some (if in_well_window w x then v else ext) := by
    funext x
    by_cases hx : in_well_window w x <;> simp [hx]
  rw [well_profile, hfun, opts_to_list_all_some]

theorem well_profile_none (w : ℚ) (ext : ℚ) (x0 : ℕ) (hx0 : x0 < 1001)
    (hw : in_well_window w x0 = true) : well_profile w none ext = none := by
  rw [well_profile]
  apply opts_to_list_none_of_mem
  refine List.mem_map.mpr ⟨x0, List.mem_range.mpr hx0, ?_⟩
  simp [hw]

theorem py_get_isSome_iff (l : List ℚ) (k : ℤ) :
    (py_get l k).isSome ↔ -(l.length : ℤ) ≤ k ∧ k < l.length := by
  rw [py_get]
  split_ifs with hp hn
  · rw [getElem?_isSome_iff]
    omega
  · rw [getElem?_isSome_iff]
    omega
  · simp only [Option.isSome_none, Bool.false_eq_true, false_iff]
    omega

theorem create_quantum_well_eq (el vb cb hh lh ct : List ℚ) (w c : ℚ)
    (e0 hhv lhv ctv cbv vbv : ℚ)
    (h0 : py_get el 0 = some e0)
    (h1 : py_get hh (py_int (c * 100)) = some hhv)
    (h2 : py_get lh (py_int (c * 100)) = some lhv)
    (h3 : py_get ct (py_int (c * 100)) = some ctv)
    (h4 : py_get cb (py_int (c * 100)) = some cbv)
    (h5 : py_get vb (py_int (c * 100)) = some vbv) :
    create_quantum_well el vb cb hh lh ct w c =
      some ((List.range 1001).map (fun x =>
              if in_well_window w x then hhv - PARAMETERS_BANDS.VBO.2 else 0),
            (List.range 1001).map (fun x =>
              if in_well_window w x then lhv - PARAMETERS_BANDS.VBO.2 else 0),
            (List.range 1001).map (fun x =>
              if in_well_window w x then ctv - PARAMETERS_BANDS.VBO.2 else e0),
            (List.range 1001).map (fun x =>
              if in_well_window w x then cbv - PARAMETERS_BANDS.VBO.2 else e0),
            (List.range 1001).map (fun x =>
              if in_well_window w x then vbv - PARAMETERS_BANDS.VBO.2 else 0)) := by
  simp only [create_quantum_well, h0, h1, h2, h3, h4, h5, Option.map_some',
    well_profile_some, Option.some_bind]

theorem in_well_window_500 (w : ℚ) (h : 0 ≤ w) : in_well_window w 500 = true := by
  rw [in_well_window, decide_eq_true_eq]
  constructor
  · rw [py_int]
    split_ifs with hq
    · have h1 : (500 - w / 2 : ℚ) ≤ 500 := by linarith
      have h2 : ⌊(500 - w / 2 : ℚ)⌋ ≤ ⌊(500 : ℚ)⌋ := Int.floor_le_floor h1
      have h3 : ⌊(500 : ℚ)⌋ = 500 := by norm_num
      push_cast
      omega
    · have h2 : ⌈(500 - w / 2 : ℚ)⌉ ≤ 0 :=
        Int.ceil_le.mpr (by push_cast; linarith [not_le.mp hq])
      push_cast
      omega
  · rw [py_int, if_pos (by linarith : (0:ℚ) ≤ 501 + w / 2)]
    have h2 : (501 : ℤ) ≤ ⌊(501 + w / 2 : ℚ)⌋ := by
      rw [Int.le_floor]
      push_cast
      linarith
    push_cast
    omega

theorem in_well_window_200 (x : ℕ) :
    in_well_window 200 x = true ↔ 400 ≤ x ∧ x < 601 := by
  rw [in_well_window, decide_eq_true_eq]
  have hl : py_int (500 - 200 / 2 : ℚ) = 400 := by
    rw [py_int, if_pos (by norm_num)]
    norm_num
  have hr : py_int (501 + 200 / 2 : ℚ) = 601 := by
    rw [py_int, if_pos (by norm_num)]
    norm_num
  rw [hl, hr]
  omega

theorem in_well_window_201_399 : in_well_window 201 399 = true := by
  rw [in_well_window, decide_eq_true_eq]
  have hl : py_int (500 - 201 / 2 : ℚ) = 399 := by
    rw [py_int, if_pos (by norm_num)]
    norm_num
  have hr : py_int (501 + 201 / 2 : ℚ) = 601 := by
    rw [py_int, if_pos (by norm_num)]
    norm_num
  rw [hl, hr]
  omega

/-! ## Claim C8 about the quantum well step profile -/

/-- C8 counterexample: the window bounds are truncated by int() before
being compared, so for the odd width 201 the code places position 399
inside the well although 399 lies strictly below the claimed real-valued
lower bound 500 - width/2 = 399.5: the heavy-hole profile at position 399
carries the interior value 7 - VBO[1], not the exterior value 0. -/
theorem quantum_well_truncated_window_cex :
    ((399 : ℚ) < 500 - 201 / 2) ∧
    Option.map (fun t => t.1.getD 399 0)
      (create_quantum_well (List.replicate 101 5) (List.replicate 101 1)
        (List.replicate 101 2) (List.replicate 101 7) (List.replicate 101 8)
        (List.replicate 101 9) 201 0) = some (7 - PARAMETERS_BANDS.VBO.2) ∧
    (7 : ℚ) - PARAMETERS_BANDS.VBO.2 ≠ 0 := by
  refine ⟨by norm_num, ?_, by norm_num [PARAMETERS_BANDS.VBO]⟩
  have hidx : py_int ((0 : ℚ) * 100) = 0 := by
    rw [py_int, if_pos (by norm_num)]
    norm_num
  have hget : ∀ v : ℚ, py_get (List.replicate 101 v) (py_int ((0 : ℚ) * 100)) = some v := by
    intro v
    rw [hidx, py_get, if_pos le_rfl]
    simp
  have h0 : py_get (List.replicate 101 (5:ℚ)) 0 = some 5 := by
    rw [py_get, if_pos le_rfl]
    simp
  rw [create_quantum_well_eq _ _ _ _ _ _ _ _ 5 7 8 9 2 1 h0 (hget 7) (hget 8) (hget 9)
    (hget 2) (hget 1)]
  rw [Option.map_some']
  rw [getD_range_map _ _ _ _ (by norm_num : (399:ℕ) < 1001)]
  rw [if_pos in_well_window_201_399]

/-- C8 amended: the step profile holds with the window bounds truncated to
integers exactly as the code computes them, int(500 - width/2) and
int(501 + width/2), rather than with the real-valued bounds of the claim
(which differ for odd widths, see the counterexample). Whenever every
band lookup succeeds, each of the five profiles equals the band value at
the scaled composition index offset by VBO[1] inside the truncated
window, and the exterior value (0 for valence profiles, the base energy
energy_list[0] for conduction profiles) outside; for width 200 the window
is exactly the positions in [400, 601), symmetric around position 500. -/
theorem quantum_well_step_profile (el vb cb hh lh ct : List ℚ) (w c : ℚ)
    (e0 hhv lhv ctv cbv vbv : ℚ)
    (h0 : py_get el 0 = some e0)
    (h1 : py_get hh (py_int (c * 100)) = some hhv)
    (h2 : py_get lh (py_int (c * 100)) = some lhv)
    (h3 : py_get ct (py_int (c * 100)) = some ctv)
    (h4 : py_get cb (py_int (c * 100)) = some cbv)
    (h5 : py_get vb (py_int (c * 100)) = some vbv) :
    create_quantum_well el vb cb hh lh ct w c =
      some ((List.range 1001).map (fun x =>
              if in_well_window w x then hhv - PARAMETERS_BANDS.VBO.2 else 0),
            (List.range 1001).map (fun x =>
              if in_well_window w x then lhv - PARAMETERS_BANDS.VBO.2 else 0),
            (List.range 1001).map (fun x =>
              if in_well_window w x then ctv - PARAMETERS_BANDS.VBO.2 else e0),
            (List.range 1001).map (fun x =>
              if in_well_window w x then cbv - PARAMETERS_BANDS.VBO.2 else e0),
            (List.range 1001).map (fun x =>
              if in_well_window w x then vbv - PARAMETERS_BANDS.VBO.2 else 0)) ∧
    (∀ x : ℕ, in_well_window 200 x = true ↔ 400 ≤ x ∧ x < 601) ∧
    (∀ x : ℕ, x ≤ 1000 → in_well_window 200 x = in_well_window 200 (1000 - x)) := by
  refine ⟨create_quantum_well_eq el vb cb hh lh ct w c e0 hhv lhv ctv cbv vbv
    h0 h1 h2 h3 h4 h5, in_well_window_200, ?_⟩
  intro x hx
  rw [Bool.eq_iff_iff, in_well_window_200 x, in_well_window_200 (1000 - x)]
  omega

/-- Witness for C8 amended: on singleton band series with composition 0
and width 200 the profiles take the stated step shape. -/
theorem quantum_well_step_profile_witness :
    py_get [(5:ℚ)] 0 = some 5 ∧
    create_quantum_well [5] [1] [2] [7] [8] [9] 200 0 =
      some ((List.range 1001).map (fun x =>
              if in_well_window 200 x then (7:ℚ) - PARAMETERS_BANDS.VBO.2 else 0),
            (List.range 1001).map (fun x =>
              if in_well_window 200 x then (8:ℚ) - PARAMETERS_BANDS.VBO.2 else 0),
            (List.range 1001).map (fun x =>
              if in_well_window 200 x then (9:ℚ) - PARAMETERS_BANDS.VBO.2 else 5),
            (List.range 1001).map (fun x =>
              if in_well_window 200 x then (2:ℚ) - PARAMETERS_BANDS.VBO.2 else 5),
            (List.range 1001).map (fun x =>
              if in_well_window 200 x then (1:ℚ) - PARAMETERS_BANDS.VBO.2 else 0)) := by
  have hidx : py_int ((0 : ℚ) * 100) = 0 := by
    rw [py_int, if_pos (by norm_num)]
    norm_num
  have hget : ∀ v : ℚ, py_get [v] (py_int ((0 : ℚ) * 100)) = some v := by
    intro v
    rw [hidx, py_get, if_pos le_rfl]
    simp
  have h0 : py_get [(5:ℚ)] 0 = some 5 := by
    rw [py_get, if_pos le_rfl]
    simp
  exact ⟨h0, (quantum_well_step_profile [5] [1] [2] [7] [8] [9] 200 0 5 7 8 9 2 1
    h0 (hget 7) (hget 8) (hget 9) (hget 2) (hget 1)).1⟩

/-! ## Claim C9 about out-of-range compositions -/

/-- C9 counterexample: a composition outside [0, 1] need not raise an
index error. For composition -1/2 the scaled index is -50, which Python
interprets as indexing from the end of the 101-element series, so
create_quantum_well returns a result instead of failing. -/
theorem quantum_well_negative_composition_cex :
    ¬ ((0:ℚ) ≤ -(1/2) ∧ (-(1/2) : ℚ) ≤ 1) ∧
    create_quantum_well (List.replicate 101 5) (List.replicate 101 1) (List.replicate 101 2)
      (List.replicate 101 7) (List.replicate 101 8) (List.replicate 101 9)
      200 (-(1/2)) ≠ none := by
  constructor
  · intro h
    have := h.1
    norm_num at this
  · have hidx : py_int ((-(1/2) : ℚ) * 100) = -50 := by
      rw [py_int, if_neg (by norm_num)]
      rw [show ((-(1/2) : ℚ) * 100) = ((-50 : ℤ) : ℚ) by norm_num]
      exact Int.ceil_intCast _
    have hget : ∀ v : ℚ, py_get (List.replicate 101 v) (py_int ((-(1/2) : ℚ) * 100)) =
        some v := by
      intro v
      rw [hidx, py_get, if_neg (by norm_num), if_pos (by norm_num)]
      norm_num
    have h0 : py_get (List.replicate 101 (5:ℚ)) 0 = some 5 := by
      rw [py_get, if_pos le_rfl]
      simp
    rw [create_quantum_well_eq _ _ _ _ _ _ _ _ 5 7 8 9 2 1 h0 (hget 7) (hget 8) (hget 9)
      (hget 2) (hget 1)]
    simp

/-- C9 amended: with 101-point band series and a nonnegative width (so
the window contains the well center), create_quantum_well raises an index
error exactly when the scaled composition index int(composition * 100)
falls outside the Python-valid range [-101, 100]; in particular
compositions in [0, 1] never raise, but compositions moderately below 0
do not raise either, because Python resolves their negative index from
the end of the series. -/
theorem quantum_well_index_error_iff (el vb cb hh lh ct : List ℚ) (w c : ℚ)
    (h_el : el.length = 101) (h_vb : vb.length = 101) (h_cb : cb.length = 101)
    (h_hh : hh.length = 101) (h_lh : lh.length = 101) (h_ct : ct.length = 101)
    (h_w : 0 ≤ w) :
    (create_quantum_well el vb cb hh lh ct w c = none ↔
      py_int (c * 100) < -101 ∨ 100 < py_int (c * 100)) ∧
    ((0 ≤ c ∧ c ≤ 1) → create_quantum_well el vb cb hh lh ct w c ≠ none) := by
  have hwin := in_well_window_500 w h_w
  have hmain : create_quantum_well el vb cb hh lh ct w c = none ↔
      (py_int (c * 100) < -101 ∨ 100 < py_int (c * 100)) := by
    by_cases hidx : py_int (c * 100) < -101 ∨ 100 < py_int (c * 100)
    · refine iff_of_true ?_ hidx
      have hnone : py_get hh (py_int (c * 100)) = none := by
        rw [← Option.not_isSome_iff_eq_none, py_get_isSome_iff, h_hh]
        omega
      have he0 : (py_get el 0).isSome := by
        rw [py_get_isSome_iff, h_el]
        omega
      obtain ⟨e0, he0'⟩ := Option.isSome_iff_exists.mp he0
      simp only [create_quantum_well, he0', hnone, Option.map_none', Option.some_bind]
      rw [well_profile_none w 0 500 (by norm_num) hwin]
      rfl
    · push_neg at hidx
      have hv : ∀ (l : List ℚ), l.length = 101 →
          (py_get l (py_int (c * 100))).isSome := by
        intro l hl
        rw [py_get_isSome_iff, hl]
        omega
      obtain ⟨e0, he0⟩ := Option.isSome_iff_exists.mp
        (by rw [py_get_isSome_iff, h_el]; omega : (py_get el 0).isSome)
      obtain ⟨hhv, hh1⟩ := Option.isSome_iff_exists.mp (hv hh h_hh)
      obtain ⟨lhv, hh2⟩ := Option.isSome_iff_exists.mp (hv lh h_lh)
      obtain ⟨ctv, hh3⟩ := Option.isSome_iff_exists.mp (hv ct h_ct)
      obtain ⟨cbv, hh4⟩ := Option.isSome_iff_exists.mp (hv cb h_cb)
      obtain ⟨vbv, hh5⟩ := Option.isSome_iff_exists.mp (hv vb h_vb)
      rw [create_quantum_well_eq el vb cb hh lh ct w c e0 hhv lhv ctv cbv vbv
        he0 hh1 hh2 hh3 hh4 hh5]
      constructor
      · intro hcontra
        exact absurd hcontra (by simp)
      · intro hd
        omega
  refine ⟨hmain, fun hc => ?_⟩
  have h0c : (0:ℚ) ≤ c * 100 := mul_nonneg hc.1 (by norm_num)
  have h1c : c * 100 ≤ 100 := by nlinarith [hc.2]
  have hfl : py_int (c * 100) = ⌊c * 100⌋ := by rw [py_int, if_pos h0c]
  have hfl0 : 0 ≤ ⌊c * 100⌋ := Int.floor_nonneg.mpr h0c
  have hfu : ⌊c * 100⌋ ≤ 100 := by
    have h := Int.floor_le_floor h1c
    simpa using h
  intro hcontra
  rw [hmain, hfl] at hcontra
  omega

/-- Witness for C9 amended: with width 0 and composition 2 the scaled
index 200 is out of range and the builder raises. -/
theorem quantum_well_index_error_iff_witness :
    (List.replicate 101 (0:ℚ)).length = 101 ∧ (0:ℚ) ≤ 0 ∧
    create_quantum_well (List.replicate 101 0) (List.replicate 101 0) (List.replicate 101 0)
      (List.replicate 101 0) (List.replicate 101 0) (List.replicate 101 0) 0 2 = none := by
  refine ⟨by simp, le_rfl, ?_⟩
  have h200 : py_int ((2:ℚ) * 100) = 200 := by
    rw [py_int, if_pos (by norm_num)]
    norm_num
  exact (quantum_well_index_error_iff _ _ _ _ _ _ 0 2 (by simp) (by simp) (by simp) (by simp)
    (by simp) (by simp) le_rfl).1.mpr (Or.inr (by rw [h200]; norm_num))
